import Mathlib

/-!
# Verification of `scripts/sign-release.py`

A shallow embedding of the release-signing script of `loiq-wp-assistent`.

Bytes are modelled as `Nat` (values `< 256` on real data), byte strings as
`List Nat`, Python `str` as Lean `String`.  The script's effects (reading the
archive and key file, printing to stdout/stderr, exiting) are modelled by a
pure function from an environment to a `RunResult` that records the exit
code, the lines written to each channel, and a trace of file-system events.

The cryptographic primitives the script imports from `pynacl` and `hashlib`
are not part of this repository.  SHA-256 and base64 are fully specified
algorithms and are implemented here directly; the Ed25519 signature scheme
is modelled symbolically (see `sigBytesOf`).
-/

set_option maxRecDepth 10000

namespace SignRelease

/-! ## Generic byte-list utilities -/

/-- Split a list into consecutive chunks of size `n` (the last chunk may be
shorter).  Mirrors the read loop `iter(lambda: f.read(8192), b'')`. -/
def chunksOfAux (fuel n : Nat) (l : List α) : List (List α) :=
  match fuel, l with
  | _, [] => []
  | 0, _ :: _ => []
  | fuel + 1, a :: l =>
      if n = 0 then [] else (a :: l).take n :: chunksOfAux fuel n ((a :: l).drop n)

def chunksOf (n : Nat) (l : List α) : List (List α) := chunksOfAux l.length n l

/-! ## SHA-256 (FIPS 180-4), over byte lists, words as `Nat` mod 2^32 -/

/-- Truncate to a 32-bit word. -/
def w32 (n : Nat) : Nat := n % 4294967296

/-- Right rotation of a 32-bit word. -/
def rotr (n x : Nat) : Nat := x / 2 ^ n + x % 2 ^ n * 2 ^ (32 - n)

def shaCh (x y z : Nat) : Nat := Nat.xor (x &&& y) (Nat.xor x 4294967295 &&& z)

def shaMaj (x y z : Nat) : Nat := Nat.xor (Nat.xor (x &&& y) (x &&& z)) (y &&& z)

def bigSigma0 (x : Nat) : Nat := Nat.xor (Nat.xor (rotr 2 x) (rotr 13 x)) (rotr 22 x)

def bigSigma1 (x : Nat) : Nat := Nat.xor (Nat.xor (rotr 6 x) (rotr 11 x)) (rotr 25 x)

def smallSigma0 (x : Nat) : Nat := Nat.xor (Nat.xor (rotr 7 x) (rotr 18 x)) (x / 8)

def smallSigma1 (x : Nat) : Nat := Nat.xor (Nat.xor (rotr 17 x) (rotr 19 x)) (x / 1024)

/-- The 64 SHA-256 round constants. -/
def shaK : List Nat :=
  [1116352408, 1899447441, 3049323471, 3921009573, 961987163,
   1508970993, 2453635748, 2870763221, 3624381080, 310598401,
   607225278, 1426881987, 1925078388, 2162078206, 2614888103,
   3248222580, 3835390401, 4022224774, 264347078, 604807628,
   770255983, 1249150122, 1555081692, 1996064986, 2554220882,
   2821834349, 2952996808, 3210313671, 3336571891, 3584528711,
   113926993, 338241895, 666307205, 773529912, 1294757372,
   1396182291, 1695183700, 1986661051, 2177026350, 2456956037,
   2730485921, 2820302411, 3259730800, 3345764771, 3516065817,
   3600352804, 4094571909, 275423344, 430227734, 506948616,
   659060556, 883997877, 958139571, 1322822218, 1537002063,
   1747873779, 1955562222, 2024104815, 2227730452, 2361852424,
   2428436474, 2756734187, 3204031479, 3329325298]

/-- The initial SHA-256 hash state. -/
def shaH0 : List Nat :=
  [1779033703, 3144134277, 1013904242, 2773480762, 1359893119,
   2600822924, 528734635, 1541459225]

/-- Big-endian byte decomposition of `n` into `k` bytes. -/
def beBytes (k n : Nat) : List Nat :=
  (List.range k).map (fun i => n / 2 ^ (8 * (k - 1 - i)) % 256)

/-- SHA-256 message padding: append `0x80`, zero bytes to 56 mod 64, and the
bit length as 8 big-endian bytes. -/
def padMsg (msg : List Nat) : List Nat :=
  msg ++ 0x80 :: List.replicate ((119 - msg.length % 64) % 64) 0 ++ beBytes 8 (msg.length * 8)

/-- Group bytes into big-endian 32-bit words. -/
def bytesToWords : List Nat → List Nat
  | b0 :: b1 :: b2 :: b3 :: rest =>
      (b0 * 16777216 + b1 * 65536 + b2 * 256 + b3) :: bytesToWords rest
  | _ => []

/-- Extend the 16 block words to the 64-entry message schedule. -/
def buildSchedule (block : List Nat) : List Nat :=
  (List.range 48).foldl
    (fun acc _ =>
      acc ++ [w32 (smallSigma1 (acc.getD (acc.length - 2) 0) + acc.getD (acc.length - 7) 0 +
        smallSigma0 (acc.getD (acc.length - 15) 0) + acc.getD (acc.length - 16) 0)])
    block

/-- One SHA-256 compression round on the state `[a,b,c,d,e,f,g,h]`. -/
def shaRound (st : List Nat) (kw : Nat × Nat) : List Nat :=
  match st with
  | [a, b, c, d, e, f, g, h] =>
      let t1 := w32 (h + bigSigma1 e + shaCh e f g + kw.1 + kw.2)
      let t2 := w32 (bigSigma0 a + shaMaj a b c)
      [w32 (t1 + t2), a, b, c, w32 (d + t1), e, f, g]
  | st => st

/-- Compress one 64-byte block into the hash state. -/
def processBlock (hs : List Nat) (block : List Nat) : List Nat :=
  let ws := buildSchedule (bytesToWords block)
  let st := (ws.zip shaK).foldl shaRound hs
  (hs.zip st).map (fun p => w32 (p.1 + p.2))

/-- The eight 32-bit words of the SHA-256 digest of `msg`. -/
def sha256Words (msg : List Nat) : List Nat :=
  (chunksOf 64 (padMsg msg)).foldl processBlock shaH0

def hexDigitChar (n : Nat) : Char :=
  ("0123456789abcdef").data.getD n '0'

/-- The 8 lowercase hex characters of a 32-bit word. -/
def wordHexChars (n : Nat) : List Char :=
  (List.range 8).map (fun i => hexDigitChar (n / 16 ^ (7 - i) % 16))

/-- Lowercase hex SHA-256 digest of a byte list, as `hashlib.sha256(.).hexdigest()`. -/
def sha256Hex (msg : List Nat) : String :=
  ⟨(sha256Words msg).flatMap wordHexChars⟩

/-! ## Base64 (RFC 4648), as used by `nacl.encoding.Base64Encoder` -/

/-- The base64 alphabet. -/
def b64Alphabet : List Char :=
  ("ABCDEFGHIJKLMNOPQRSTUVWXYZabcdefghijklmnopqrstuvwxyz0123456789+/").data

/-- The value of a base64 alphabet character (its index in `b64Alphabet`),
`none` for characters outside the alphabet. -/
def b64CharVal (c : Char) : Option Nat :=
  let n := c.toNat
  if 65 ≤ n ∧ n ≤ 90 then some (n - 65)
  else if 97 ≤ n ∧ n ≤ 122 then some (n - 97 + 26)
  else if 48 ≤ n ∧ n ≤ 57 then some (n - 48 + 52)
  else if n = 43 then some 62
  else if n = 47 then some 63
  else none

/-- Encode a byte list in base64 with padding. -/
def b64encodeChars : List Nat → List Char
  | b0 :: b1 :: b2 :: rest =>
      let n := b0 % 256 * 65536 + b1 % 256 * 256 + b2 % 256
      b64Alphabet.getD (n / 262144) 'A' :: b64Alphabet.getD (n / 4096 % 64) 'A' ::
        b64Alphabet.getD (n / 64 % 64) 'A' :: b64Alphabet.getD (n % 64) 'A' :: b64encodeChars rest
  | [b0, b1] =>
      let n := b0 % 256 * 65536 + b1 % 256 * 256
      [b64Alphabet.getD (n / 262144) 'A', b64Alphabet.getD (n / 4096 % 64) 'A',
       b64Alphabet.getD (n / 64 % 64) 'A', '=']
  | [b0] =>
      let n := b0 % 256 * 65536
      [b64Alphabet.getD (n / 262144) 'A', b64Alphabet.getD (n / 4096 % 64) 'A', '=', '=']
  | [] => []

def b64encode (bs : List Nat) : String := ⟨b64encodeChars bs⟩

/-- Decode a base64 string given as groups of four characters; padding is only
accepted in the final group. -/
def b64decodeGroups : List Char → Option (List Nat)
  | [] => some []
  | c1 :: c2 :: c3 :: c4 :: rest =>
      match b64CharVal c1, b64CharVal c2 with
      | some v1, some v2 =>
          if c3 = '=' then
            if c4 = '=' ∧ rest = [] then some [v1 * 4 + v2 / 16]
            else none
          else
            match b64CharVal c3 with
            | some v3 =>
                if c4 = '=' then
                  if rest = [] then some [v1 * 4 + v2 / 16, v2 % 16 * 16 + v3 / 4]
                  else none
                else
                  match b64CharVal c4 with
                  | some v4 =>
                      (b64decodeGroups rest).map
                        (fun bs => (v1 * 4 + v2 / 16) :: (v2 % 16 * 16 + v3 / 4) ::
                          (v3 % 4 * 64 + v4) :: bs)
                  | none => none
            | none => none
      | _, _ => none
  | _ => none

/-- `base64.b64decode`, modelled strictly: the input must consist of whole
groups of four alphabet characters, with `=` padding only at the end. -/
def b64decode (s : String) : Option (List Nat) := b64decodeGroups s.data

/-! ## Python `str.strip()` -/

/-- Whitespace characters stripped by Python's `str.strip()` (ASCII range). -/
def isPySpace (c : Char) : Bool :=
  c == ' ' || c == '\t' || c == '\n' || c == '\r' || c == Char.ofNat 11 || c == Char.ofNat 12

def pyStripList (l : List Char) : List Char :=
  ((l.dropWhile isPySpace).reverse.dropWhile isPySpace).reverse

/-- Python's `str.strip()`: remove leading and trailing whitespace. -/
def pyStrip (s : String) : String := ⟨pyStripList s.data⟩

/-! ## UTF-8, as `str.encode()` -/

/-- The UTF-8 encoding of one code point. -/
def utf8EncodeChar (c : Char) : List Nat :=
  if c.toNat < 128 then [c.toNat]
  else if c.toNat < 2048 then [192 + c.toNat / 64, 128 + c.toNat % 64]
  else if c.toNat < 65536 then
    [224 + c.toNat / 4096, 128 + c.toNat / 64 % 64, 128 + c.toNat % 64]
  else
    [240 + c.toNat / 262144, 128 + c.toNat / 4096 % 64, 128 + c.toNat / 64 % 64,
     128 + c.toNat % 64]

/-- `str.encode()`: the UTF-8 bytes of a string. -/
def utf8Bytes (s : String) : List Nat := s.data.flatMap utf8EncodeChar

/-- A (lenient) UTF-8 decoder to the list of code points; inverse to
`utf8Bytes` on its range, which establishes injectivity of the encoding. -/
def utf8DecodeAux (l : List Nat) : Option (List Nat) :=
  match l with
  | [] => some []
  | b :: rest =>
      if b < 128 then (utf8DecodeAux rest).map (b :: ·)
      else if b < 192 then none
      else if b < 224 then
        (utf8DecodeAux (rest.drop 1)).map (((b - 192) * 64 + (rest.getD 0 0 - 128)) :: ·)
      else if b < 240 then
        (utf8DecodeAux (rest.drop 2)).map
          (((b - 224) * 4096 + (rest.getD 0 0 - 128) * 64 + (rest.getD 1 0 - 128)) :: ·)
      else
        (utf8DecodeAux (rest.drop 3)).map
          (((b - 240) * 262144 + (rest.getD 0 0 - 128) * 4096 + (rest.getD 1 0 - 128) * 64 +
            (rest.getD 2 0 - 128)) :: ·)
termination_by l.length
decreasing_by
  all_goals simp only [List.length_drop, List.length_cons]
  all_goals omega

/-! ## Ed25519, modelled symbolically

Modelled from the spec: the Ed25519 primitives come from `pynacl`, which is
not part of this repository.  The spec requires a deterministic scheme in
which a signature made with the private key verifies against the
corresponding public key and the exact message bytes, and verification
fails for any other message or signature.  We model this idealized scheme
symbolically: a seed determines the keypair, the unique valid signature for
`(pk, msg)` is an injective encoding of the pair, and verification succeeds
exactly on that byte string. -/

/-- An Ed25519 signing key, determined by its 32-byte seed. -/
structure SigningKey where
  seed : List Nat
deriving DecidableEq, Repr

/-- Modelled from the spec: derivation of the public verification key from
the private key (`signing_key.verify_key`) is deterministic and injective;
it is modelled as the identity on seeds. -/
def publicKeyOf (seed : List Nat) : List Nat := seed

/-- Modelled from the spec: the unique valid signature bytes for a public
key and a message — an injective encoding of the pair. -/
def sigBytesOf (pk msg : List Nat) : List Nat := pk.length :: pk ++ msg

/-- `signing_key.sign(msg).signature`: the detached signature bytes. -/
def signBytes (k : SigningKey) (msg : List Nat) : List Nat :=
  sigBytesOf (publicKeyOf k.seed) msg

/-- `VerifyKey(pk).verify(msg, sig)`: verification succeeds exactly on the
unique valid signature of `msg` under `pk`. -/
def verify (pk msg sg : List Nat) : Bool := sg == sigBytesOf pk msg

/-- Flip bit `i` of a byte string (bit `i % 8` of byte `i / 8`). -/
def flipBit (i : Nat) (l : List Nat) : List Nat :=
  l.set (i / 8) (l.getD (i / 8) 0 ^^^ 2 ^ (i % 8))

/-! ## The script's pure helpers -/

def KEY_ID : String := "key-2026-01"

def DOWNLOAD_BASE_URL : String := "https://loiq-wp-agent.vercel.app"

/-- The `CHANGELOG` dictionary (each value is a Python triple-quoted string,
hence the leading and trailing newlines). -/
def CHANGELOG (version : String) : Option String :=
  if version = "3.1.4" then some ("\n### 3.1.4 - Security & Quality Hardening\n- SECURITY: exec() vervangen door token_get_all() voor PHP validatie\n- SECURITY: Ed25519 signed auto-updates via Vercel (vervangt unsigned GitHub releases)\n- QUALITY: PHP 7.4+ type declarations op alle functies\n- i18n: User-facing strings gewrapped in __()/_e()\n")
  else if version = "3.1.3" then some ("\n### 3.1.3 - Security Fix\n- SECURITY: exec() removed from snippet security scanner\n- Plugin URI header added\n")
  else if version = "3.1.2" then some ("\n### 3.1.2 - Bug Fixes\n- Various bug fixes and improvements\n")
  else if version = "3.0.0" then some ("\n### 3.0.0 - Site Builder Endpoints\n- NEW: Divi Builder endpoints (build, parse, validate, modules)\n- NEW: Theme Builder endpoints (list, create, update, assign)\n- NEW: Page endpoints (create, clone, list)\n- NEW: Menu endpoints (create, items/add, assign, mega-menu)\n- NEW: Media endpoints (upload, search)\n- NEW: Forms endpoints (create, update, embed)\n- NEW: Child Theme endpoints (functions append/remove)\n- NEW: FacetWP endpoints (facet create, template)\n- NEW: Taxonomy endpoints (list, create-term, assign)\n")
  else none

/-- `CHANGELOG.get(version, f"### {version}\n- Bug fixes and improvements")`. -/
def changelogFor (version : String) : String :=
  (CHANGELOG version).getD ("### " ++ version ++ "\n- Bug fixes and improvements")

/-- The canonical message
`f"version={version}\ndownload_url={download_url}\nsha256={sha256}\nreleased_at={released_at}\n"`. -/
def canonicalMessage (version downloadUrl shaHex releasedAt : String) : String :=
  "version=" ++ version ++ "\ndownload_url=" ++ downloadUrl ++ "\nsha256=" ++ shaHex ++
    "\nreleased_at=" ++ releasedAt ++ "\n"

/-- `pathlib.PurePath(p).name`: the final path component (for paths without
`.`/`..` components; trailing slashes are dropped by normalization). -/
def pathName (p : String) : String :=
  ⟨((p.data.splitOn '/').filter (· ≠ [])).getLastD []⟩

/-! ## `json.dumps(..., indent=2)` for a flat dict of string values -/

def hex4Chars (n : Nat) : List Char :=
  [hexDigitChar (n / 4096 % 16), hexDigitChar (n / 256 % 16),
   hexDigitChar (n / 16 % 16), hexDigitChar (n % 16)]

/-- The escape of one character in a JSON string literal, following
`json.dumps` with its default `ensure_ascii=True`. -/
def jsonEscapeChar (c : Char) : List Char :=
  if c = '"' then ['\\', '"']
  else if c = '\\' then ['\\', '\\']
  else if c = '\n' then ['\\', 'n']
  else if c = '\t' then ['\\', 't']
  else if c = '\r' then ['\\', 'r']
  else if c = Char.ofNat 8 then ['\\', 'b']
  else if c = Char.ofNat 12 then ['\\', 'f']
  else if c.toNat < 32 then '\\' :: 'u' :: hex4Chars c.toNat
  else if c.toNat < 127 then [c]
  else if c.toNat < 65536 then '\\' :: 'u' :: hex4Chars c.toNat
  else
    '\\' :: 'u' :: hex4Chars (55296 + (c.toNat - 65536) / 1024) ++
      '\\' :: 'u' :: hex4Chars (56320 + (c.toNat - 65536) % 1024)

/-- A JSON string literal. -/
def jsonString (s : String) : String :=
  ⟨'"' :: s.data.flatMap jsonEscapeChar ++ ['"']⟩

/-- `json.dumps(d, indent=2)` for a dict `d` of string values, keys in
insertion order. -/
def jsonDumps (pairs : List (String × String)) : String :=
  match pairs with
  | [] => "\x7b\x7d"
  | _ =>
      "\x7b\n" ++
        String.intercalate ",\n"
          (pairs.map (fun p => "  " ++ jsonString p.1 ++ ": " ++ jsonString p.2)) ++
      "\n\x7d"

/-! ## The script's effectful environment -/

/-- What a path resolves to in the modelled file system. -/
inductive FileNode where
  | regular (content : List Nat)
  | directory
deriving DecidableEq, Repr

/-- The Python exceptions relevant to this script. -/
inductive PyErr where
  | fileNotFoundError
  | isADirectoryError
  | osError
  | valueError
deriving DecidableEq, Repr

/-- File-system events a run could perform.  `writeFile` is expressible but,
as the theorems show, never emitted: the script only reads. -/
inductive Event where
  | readKeyFile
  | generateKey
  | readArchive
  | writeFile (path : String) (content : String)
deriving DecidableEq, Repr

/-- The environment of one invocation: the file system, a flag per path for
an I/O fault occurring mid-read, the content of the key file at
`SIGNING_KEY_PATH` (if it exists), that path's textual form, the seed the
RNG would produce for `SigningKey.generate()`, and the formatted current
UTC time `datetime.now(timezone.utc).strftime("%Y-%m-%dT%H:%M:%SZ")`. -/
structure Env where
  fs : String → Option FileNode
  readFaults : String → Bool
  keyFile : Option String
  keyPath : String
  freshSeed : List Nat
  now : String

/-- The observable outcome of a run: exit code, the print calls made on
stdout and on stderr, and the trace of file-system events. -/
structure RunResult where
  exitCode : Nat
  stdout : List String
  stderr : List String
  events : List Event
deriving DecidableEq, Repr

/-- An uncaught Python exception reported on stderr. -/
def pyTraceback : PyErr → String
  | .fileNotFoundError => "Traceback (most recent call last): FileNotFoundError"
  | .isADirectoryError => "Traceback (most recent call last): IsADirectoryError"
  | .osError => "Traceback (most recent call last): OSError"
  | .valueError => "Traceback (most recent call last): ValueError"

/-- An apostrophe, as printed in the generated-key banner. -/
def sq : String := ⟨[Char.ofNat 39]⟩

/-! ## The script's functions -/

/-- `generate_key_pair()`: generate a fresh keypair and report it on stderr;
the key is returned, never written to disk. -/
def generate_key_pair (env : Env) : SigningKey × List String :=
  let signingKey : SigningKey := ⟨env.freshSeed⟩
  let privateKeyB64 := b64encode env.freshSeed
  let publicKeyB64 := b64encode (publicKeyOf env.freshSeed)
  (signingKey,
   ["=== NEW KEY PAIR GENERATED ===",
    "Key ID: " ++ KEY_ID,
    "",
    "PRIVATE KEY (save to " ++ env.keyPath ++ "):",
    privateKeyB64,
    "",
    "PUBLIC KEY (add to class-updater.php):",
    sq ++ KEY_ID ++ sq ++ " => " ++ sq ++ publicKeyB64 ++ sq ++ ",",
    ""])

/-- `SigningKey(key_b64.encode(), encoder=Base64Encoder)`: base64-decode and
require a 32-byte seed; anything else raises. -/
def decodeKey (s : String) : Option SigningKey :=
  match b64decode s with
  | some bs => if bs.length = 32 then some ⟨bs⟩ else none
  | none => none

/-- `load_signing_key()`: returns the key (or the raised exception), the
stderr lines printed, and the file-system events performed. -/
def load_signing_key (env : Env) : Except PyErr SigningKey × List String × List Event :=
  match env.keyFile with
  | none =>
      let g := generate_key_pair env
      (.ok g.1,
       ("No signing key found at " ++ env.keyPath) :: "Generating new key pair..." :: g.2,
       [.generateKey])
  | some content =>
      match decodeKey (pyStrip content) with
      | some k => (.ok k, [], [.readKeyFile])
      | none => (.error .valueError, [], [.readKeyFile])

/-- Digest of the streamed chunks: each `f.read(8192)` chunk is fed to
`sha256.update`, which is the digest of their concatenation. -/
def sha256Chunked (chunkSize : Nat) (content : List Nat) : String :=
  sha256Hex (chunksOf chunkSize content).flatten

/-- `compute_sha256(file_path)`: open the file and hash it in 8192-byte
chunks.  Opening a missing path raises `FileNotFoundError`, a directory
raises `IsADirectoryError`, and a fault while reading raises `OSError`. -/
def compute_sha256 (env : Env) (path : String) : Except PyErr String :=
  match env.fs path with
  | none => .error .fileNotFoundError
  | some .directory => .error .isADirectoryError
  | some (.regular content) =>
      if env.readFaults path then .error .osError
      else .ok (sha256Chunked 8192 content)

/-- `sign_release(version, zip_path)`: the whole signing run. -/
def sign_release (version zipPath : String) (env : Env) : RunResult :=
  if (env.fs zipPath).isNone then
    { exitCode := 1, stdout := [],
      stderr := ["Error: ZIP file not found: " ++ zipPath], events := [] }
  else
    let loaded := load_signing_key env
    match loaded.1 with
    | .error e =>
        { exitCode := 1, stdout := [],
          stderr := loaded.2.1 ++ [pyTraceback e], events := loaded.2.2 }
    | .ok signingKey =>
        let publicKeyB64 := b64encode (publicKeyOf signingKey.seed)
        match compute_sha256 env zipPath with
        | .error e =>
            { exitCode := 1, stdout := [],
              stderr := loaded.2.1 ++ [pyTraceback e],
              events := loaded.2.2 ++ [.readArchive] }
        | .ok shaHex =>
            let downloadUrl := DOWNLOAD_BASE_URL ++ "/" ++ pathName zipPath
            let releasedAt := env.now
            let canonical := canonicalMessage version downloadUrl shaHex releasedAt
            let signatureB64 := b64encode (signBytes signingKey (utf8Bytes canonical))
            let updateInfo : List (String × String) :=
              [("name", "LOIQ WordPress Agent"),
               ("version", version),
               ("download_url", downloadUrl),
               ("homepage", "https://loiq.nl"),
               ("sha256", shaHex),
               ("released_at", releasedAt),
               ("key_id", KEY_ID),
               ("signature", signatureB64),
               ("changelog", pyStrip (changelogFor version)),
               ("requires", "5.8"),
               ("requires_php", "7.4"),
               ("tested", "6.7")]
            { exitCode := 0,
              stdout := [jsonDumps updateInfo],
              stderr := loaded.2.1 ++
                ["\n=== RELEASE SIGNED ===",
                 "Version: " ++ version,
                 "SHA-256: " ++ shaHex,
                 "Key ID: " ++ KEY_ID,
                 "Public Key: " ++ publicKeyB64,
                 "Released: " ++ releasedAt],
              events := loaded.2.2 ++ [.readArchive] }

/-- `main()`: argument check, then `sign_release(sys.argv[1], sys.argv[2])`. -/
def mainRun (argv : List String) (env : Env) : RunResult :=
  if argv.length < 3 then
    { exitCode := 1, stdout := [],
      stderr := ["Usage: python3 sign-release.py <version> <zip_path>",
                 "Example: python3 sign-release.py 3.1.4 ../public/loiq-wp-agent.zip"],
      events := [] }
  else sign_release (argv.getD 1 "") (argv.getD 2 "") env

/-- The 12 keys of the emitted descriptor, in their fixed order. -/
def descriptorKeys : List String :=
  ["name", "version", "download_url", "homepage", "sha256", "released_at",
   "key_id", "signature", "changelog", "requires", "requires_php", "tested"]

/-- The content of the key file at `keyPath` after replaying a trace of
file-system events over an initial content. -/
def keyFileAfter (events : List Event) (keyPath : String) (init : Option String) : Option String :=
  events.foldl
    (fun st e =>
      match e with
      | .writeFile p c => if p = keyPath then some c else st
      | _ => st)
    init

/-- A concrete environment: one regular archive file, no key file. -/
def envFresh : Env :=
  { fs := fun p => if p = "loiq-wp-agent.zip" then some (.regular [1, 2, 3]) else none,
    readFaults := fun _ => false,
    keyFile := none,
    keyPath := "scripts/.signing-key",
    freshSeed := List.replicate 32 7,
    now := "2026-01-02T03:04:05Z" }

/-- A concrete environment whose only entry is a directory. -/
def envDir : Env :=
  { fs := fun p => if p = "build" then some .directory else none,
    readFaults := fun _ => false,
    keyFile := none,
    keyPath := "scripts/.signing-key",
    freshSeed := List.replicate 32 7,
    now := "2026-01-02T03:04:05Z" }

/-- A concrete environment with a malformed key file. -/
def envBadKey : Env :=
  { fs := fun p => if p = "loiq-wp-agent.zip" then some (.regular [1, 2, 3]) else none,
    readFaults := fun _ => false,
    keyFile := some "AAAA",
    keyPath := "scripts/.signing-key",
    freshSeed := List.replicate 32 7,
    now := "2026-01-02T03:04:05Z" }

/-- A valid base64 encoding of a 32-byte (all-zero) seed. -/
def zeroSeedB64 : String := "AAAAAAAAAAAAAAAAAAAAAAAAAAAAAAAAAAAAAAAAAAA="

/-- A concrete environment whose key file holds `zeroSeedB64` surrounded by
whitespace. -/
def envPaddedKey : Env :=
  { fs := fun p => if p = "loiq-wp-agent.zip" then some (.regular [1, 2, 3]) else none,
    readFaults := fun _ => false,
    keyFile := some ("\n " ++ zeroSeedB64 ++ " \n\n"),
    keyPath := "scripts/.signing-key",
    freshSeed := List.replicate 32 7,
    now := "2026-01-02T03:04:05Z" }

/-- A concrete environment whose key file holds `zeroSeedB64` bare. -/
def envBareKey : Env :=
  { envPaddedKey with keyFile := some zeroSeedB64 }

/-! ## Helper lemmas -/

theorem chunksOfAux_flatten {α : Type} {n : Nat} (hn : 0 < n) :
    ∀ (fuel : Nat) (l : List α), l.length ≤ fuel → (chunksOfAux fuel n l).flatten = l := by
  intro fuel
  induction fuel with
  | zero =>
      intro l hl
      cases l with
      | nil => simp [chunksOfAux]
      | cons a t => simp at hl
  | succ fuel ih =>
      intro l hl
      cases l with
      | nil => simp [chunksOfAux]
      | cons a t =>
          rw [chunksOfAux]
          rw [if_neg (Nat.pos_iff_ne_zero.mp hn)]
          rw [List.flatten_cons]
          rw [ih ((a :: t).drop n)
            (by simp only [List.length_drop, List.length_cons] at hl ⊢; omega)]
          exact List.take_append_drop n (a :: t)

theorem chunksOf_flatten {α : Type} {n : Nat} (hn : 0 < n) (l : List α) :
    (chunksOf n l).flatten = l :=
  chunksOfAux_flatten hn l.length l le_rfl

/-- The streamed digest is the digest of the whole content, for any positive
chunk size. -/
theorem sha256Chunked_eq {n : Nat} (hn : 0 < n) (content : List Nat) :
    sha256Chunked n content = sha256Hex content := by
  rw [sha256Chunked, chunksOf_flatten hn]

theorem xor_pow_ne {b k : Nat} : b ^^^ 2 ^ k ≠ b := by
  intro h
  have h2 : b ^^^ (b ^^^ 2 ^ k) = b ^^^ b := by rw [h]
  rw [← Nat.xor_assoc, Nat.xor_self, Nat.zero_xor] at h2
  exact (Nat.pos_pow_of_pos k (by omega)).ne' h2

theorem flipBit_ne {i : Nat} {l : List Nat} (h : i / 8 < l.length) : flipBit i l ≠ l := by
  intro he
  have hgd : (flipBit i l).getD (i / 8) 0 = l.getD (i / 8) 0 := by rw [he]
  rw [flipBit] at hgd
  rw [List.getD_eq_getElem _ _ (by simpa using h)] at hgd
  rw [List.getElem_set_self] at hgd
  exact xor_pow_ne hgd

theorem div8_lt {i len : Nat} (h : i < 8 * len) : i / 8 < len := by omega

theorem sigBytesOf_msg_inj {pk m m' : List Nat} (h : sigBytesOf pk m = sigBytesOf pk m') :
    m = m' := by
  rw [sigBytesOf, sigBytesOf] at h
  injection h with h1 h2
  exact List.append_cancel_left h2

theorem shaRound_length (st : List Nat) (kw : Nat × Nat) :
    (shaRound st kw).length = st.length := by
  rcases st with _ | ⟨a, _ | ⟨b, _ | ⟨c, _ | ⟨d, _ | ⟨e, _ | ⟨f, _ | ⟨g, _ | ⟨h, _ | ⟨x, rest⟩⟩⟩⟩⟩⟩⟩⟩⟩ <;>
    simp [shaRound]

theorem foldl_shaRound_length (l : List (Nat × Nat)) :
    ∀ st : List Nat, (l.foldl shaRound st).length = st.length := by
  induction l with
  | nil => intro st; rfl
  | cons x xs ih =>
      intro st
      rw [List.foldl_cons, ih (shaRound st x), shaRound_length]

theorem processBlock_length (hs block : List Nat) (h : hs.length = 8) :
    (processBlock hs block).length = 8 := by
  rw [processBlock]
  simp only [List.length_map, List.length_zip, foldl_shaRound_length, h]
  omega

theorem foldl_processBlock_length (bs : List (List Nat)) :
    ∀ hs : List Nat, hs.length = 8 → (bs.foldl processBlock hs).length = 8 := by
  induction bs with
  | nil => intro hs h; exact h
  | cons b bs ih =>
      intro hs h
      rw [List.foldl_cons]
      exact ih _ (processBlock_length hs b h)

theorem sha256Words_length (msg : List Nat) : (sha256Words msg).length = 8 :=
  foldl_processBlock_length _ shaH0 rfl

theorem flatMap_const_length {α β : Type} (f : α → List β) (k : Nat)
    (hf : ∀ x, (f x).length = k) : ∀ l : List α, (l.flatMap f).length = k * l.length := by
  intro l
  induction l with
  | nil => simp
  | cons a t ih =>
      rw [List.flatMap_cons, List.length_append, hf, ih, List.length_cons]
      ring

theorem wordHexChars_length (n : Nat) : (wordHexChars n).length = 8 := by
  simp [wordHexChars]

def hexLowerChars : List Char := ("0123456789abcdef").data

theorem hexDigitChar_mem (n : Nat) : hexDigitChar n ∈ hexLowerChars := by
  rw [hexDigitChar]
  rcases Nat.lt_or_ge n 16 with h | h
  · interval_cases n <;> decide
  · rw [List.getD_eq_default _ _ (by simpa using h)]
    decide

theorem sha256Hex_length (msg : List Nat) : (sha256Hex msg).data.length = 64 := by
  rw [sha256Hex]
  rw [flatMap_const_length wordHexChars 8 wordHexChars_length, sha256Words_length]

theorem sha256Hex_lower_hex (msg : List Nat) :
    ∀ c ∈ (sha256Hex msg).data, c ∈ hexLowerChars := by
  intro c hc
  rw [sha256Hex] at hc
  rw [List.mem_flatMap] at hc
  obtain ⟨w, _, hw⟩ := hc
  rw [wordHexChars, List.mem_map] at hw
  obtain ⟨i, _, hi⟩ := hw
  exact hi ▸ hexDigitChar_mem _

theorem char_toNat_lt (c : Char) : c.toNat < 1114112 := by
  rcases c.valid with h | h
  · exact Nat.lt_trans h (by norm_num)
  · exact h.2

theorem char_toNat_inj {c1 c2 : Char} (h : c1.toNat = c2.toNat) : c1 = c2 :=
  Char.ext (UInt32.toNat.inj h)

theorem utf8DecodeAux_encodeChar (c : Char) (r : List Nat) :
    utf8DecodeAux (utf8EncodeChar c ++ r) = (utf8DecodeAux r).map (c.toNat :: ·) := by
  have hlt := char_toNat_lt c
  rw [utf8EncodeChar]
  by_cases h1 : c.toNat < 128
  · rw [if_pos h1, List.singleton_append, utf8DecodeAux, if_pos h1]
  · rw [if_neg h1]
    by_cases h2 : c.toNat < 2048
    · rw [if_pos h2, List.cons_append, List.singleton_append, utf8DecodeAux]
      rw [if_neg (by omega), if_neg (by omega), if_pos (by omega)]
      simp only [List.getD_cons_zero, List.drop_succ_cons, List.drop_zero]
      have harith : (192 + c.toNat / 64 - 192) * 64 + (128 + c.toNat % 64 - 128) = c.toNat := by
        omega
      rw [harith]
    · rw [if_neg h2]
      by_cases h3 : c.toNat < 65536
      · rw [if_pos h3, List.cons_append, List.cons_append, List.singleton_append, utf8DecodeAux]
        rw [if_neg (by omega), if_neg (by omega), if_neg (by omega), if_pos (by omega)]
        simp only [List.getD_cons_zero, List.getD_cons_succ, List.drop_succ_cons, List.drop_zero]
        have harith : (224 + c.toNat / 4096 - 224) * 4096 + (128 + c.toNat / 64 % 64 - 128) * 64 +
            (128 + c.toNat % 64 - 128) = c.toNat := by omega
        rw [harith]
      · rw [if_neg h3, List.cons_append, List.cons_append, List.cons_append,
          List.singleton_append, utf8DecodeAux]
        rw [if_neg (by omega), if_neg (by omega), if_neg (by omega), if_neg (by omega)]
        simp only [List.getD_cons_zero, List.getD_cons_succ, List.drop_succ_cons, List.drop_zero]
        have harith : (240 + c.toNat / 262144 - 240) * 262144 +
            (128 + c.toNat / 4096 % 64 - 128) * 4096 +
            (128 + c.toNat / 64 % 64 - 128) * 64 + (128 + c.toNat % 64 - 128) = c.toNat := by
          omega
        rw [harith]

theorem utf8DecodeAux_flatMap (cs : List Char) :
    utf8DecodeAux (cs.flatMap utf8EncodeChar) = some (cs.map Char.toNat) := by
  induction cs with
  | nil => simp [utf8DecodeAux]
  | cons c t ih =>
      rw [List.flatMap_cons, utf8DecodeAux_encodeChar, ih]
      simp

/-- UTF-8 encoding is injective on strings. -/
theorem utf8Bytes_inj {s t : String} (h : utf8Bytes s = utf8Bytes t) : s = t := by
  apply String.ext
  have h2 : utf8DecodeAux (s.data.flatMap utf8EncodeChar) =
      utf8DecodeAux (t.data.flatMap utf8EncodeChar) := by
    rw [show s.data.flatMap utf8EncodeChar = utf8Bytes s from rfl,
      show t.data.flatMap utf8EncodeChar = utf8Bytes t from rfl, h]
  rw [utf8DecodeAux_flatMap, utf8DecodeAux_flatMap] at h2
  injection h2 with h3
  exact List.map_injective_iff.mpr (fun _ _ => char_toNat_inj) h3

theorem utf8Bytes_append (a b : String) : utf8Bytes (a ++ b) = utf8Bytes a ++ utf8Bytes b := by
  rw [utf8Bytes, utf8Bytes, utf8Bytes, String.data_append, List.flatMap_append]

/-- Splitting at a separator that occurs in neither prefix is unambiguous. -/
theorem sep_append_inj {α : Type} {sep : α} :
    ∀ {a a' t t' : List α}, sep ∉ a → sep ∉ a' →
      a ++ sep :: t = a' ++ sep :: t' → a = a' ∧ t = t' := by
  intro a
  induction a with
  | nil =>
      intro a' t t' ha ha' h
      cases a' with
      | nil =>
          rw [List.nil_append, List.nil_append] at h
          injection h with _ h2
          exact ⟨rfl, h2⟩
      | cons y a'' =>
          rw [List.nil_append, List.cons_append] at h
          injection h with h1 h2
          subst h1
          exact absurd (List.mem_cons_self _ _) ha'
  | cons x a ih =>
      intro a' t t' ha ha' h
      cases a' with
      | nil =>
          rw [List.cons_append, List.nil_append] at h
          injection h with h1 h2
          subst h1
          exact absurd (List.mem_cons_self _ _) ha
      | cons y a'' =>
          rw [List.cons_append, List.cons_append] at h
          injection h with h1 h2
          obtain ⟨e1, e2⟩ := ih (fun hm => ha (List.mem_cons_of_mem _ hm))
            (fun hm => ha' (List.mem_cons_of_mem _ hm)) h2
          exact ⟨by rw [h1, e1], e2⟩

/-- With newline-free fields, the canonical message determines all four
fields: no field's value can stand in another field's position. -/
theorem canonicalMessage_inj {v d s r v' d' s' r' : String}
    (hv : '\n' ∉ v.data) (hd : '\n' ∉ d.data) (hs : '\n' ∉ s.data) (hr : '\n' ∉ r.data)
    (hv' : '\n' ∉ v'.data) (hd' : '\n' ∉ d'.data) (hs' : '\n' ∉ s'.data) (hr' : '\n' ∉ r'.data)
    (h : canonicalMessage v d s r = canonicalMessage v' d' s' r') :
    v = v' ∧ d = d' ∧ s = s' ∧ r = r' := by
  have hdata := congrArg String.data h
  simp only [canonicalMessage, String.data_append, List.append_assoc, List.cons_append,
    List.nil_append, List.cons.injEq, eq_self_iff_true, true_and] at hdata
  have h1 := sep_append_inj hv hv' hdata
  have t1 := h1.2
  simp only [List.cons.injEq, eq_self_iff_true, true_and] at t1
  have h2 := sep_append_inj hd hd' t1
  have t2 := h2.2
  simp only [List.cons.injEq, eq_self_iff_true, true_and] at t2
  have h3 := sep_append_inj hs hs' t2
  have t3 := h3.2
  simp only [List.cons.injEq, eq_self_iff_true, true_and] at t3
  have h4 := sep_append_inj hr hr' t3
  exact ⟨String.ext h1.1, String.ext h2.1, String.ext h3.1, String.ext h4.1⟩

theorem canonical_ne_of_version_ne {v v' d s r : String} (h : v ≠ v') :
    utf8Bytes (canonicalMessage v d s r) ≠ utf8Bytes (canonicalMessage v' d s r) := by
  intro he
  apply h
  have hdata := congrArg String.data (utf8Bytes_inj he)
  simp only [canonicalMessage, String.data_append, List.append_assoc, List.cons_append,
    List.nil_append, List.cons.injEq, eq_self_iff_true, true_and] at hdata
  exact String.ext (List.append_cancel_right hdata)

theorem canonical_ne_of_download_ne {v d d' s r : String} (h : d ≠ d') :
    utf8Bytes (canonicalMessage v d s r) ≠ utf8Bytes (canonicalMessage v d' s r) := by
  intro he
  apply h
  have hdata := congrArg String.data (utf8Bytes_inj he)
  simp only [canonicalMessage, String.data_append, List.append_assoc, List.cons_append,
    List.nil_append, List.cons.injEq, eq_self_iff_true, true_and] at hdata
  have t := List.append_cancel_left hdata
  simp only [List.cons.injEq, eq_self_iff_true, true_and] at t
  exact String.ext (List.append_cancel_right t)

theorem canonical_ne_of_sha_ne {v d s s' r : String} (h : s ≠ s') :
    utf8Bytes (canonicalMessage v d s r) ≠ utf8Bytes (canonicalMessage v d s' r) := by
  intro he
  apply h
  have hdata := congrArg String.data (utf8Bytes_inj he)
  simp only [canonicalMessage, String.data_append, List.append_assoc, List.cons_append,
    List.nil_append, List.cons.injEq, eq_self_iff_true, true_and] at hdata
  have t1 := List.append_cancel_left hdata
  simp only [List.cons.injEq, eq_self_iff_true, true_and] at t1
  have t2 := List.append_cancel_left t1
  simp only [List.cons.injEq, eq_self_iff_true, true_and] at t2
  exact String.ext (List.append_cancel_right t2)

theorem canonical_ne_of_released_ne {v d s r r' : String} (h : r ≠ r') :
    utf8Bytes (canonicalMessage v d s r) ≠ utf8Bytes (canonicalMessage v d s r') := by
  intro he
  apply h
  have hdata := congrArg String.data (utf8Bytes_inj he)
  simp only [canonicalMessage, String.data_append, List.append_assoc, List.cons_append,
    List.nil_append, List.cons.injEq, eq_self_iff_true, true_and] at hdata
  have t1 := List.append_cancel_left hdata
  simp only [List.cons.injEq, eq_self_iff_true, true_and] at t1
  have t2 := List.append_cancel_left t1
  simp only [List.cons.injEq, eq_self_iff_true, true_and] at t2
  have t3 := List.append_cancel_left t2
  simp only [List.cons.injEq, eq_self_iff_true, true_and] at t3
  exact String.ext (List.append_cancel_right t3)

/-! ## Claim C2 -/

/-- Claim C2: the canonical message's bytes are exactly the four `key=value`
lines, newline-terminated, in the fixed order version, download_url, sha256,
released_at; it is a deterministic function of the four fields, changing any
one field changes the output, and (for newline-free fields) no field's value
can occupy another field's position. -/
theorem claim2_canonical_message (v d s r v' d' s' r' : String)
    (hv : '\n' ∉ v.data) (hd : '\n' ∉ d.data) (hs : '\n' ∉ s.data) (hr : '\n' ∉ r.data)
    (hv' : '\n' ∉ v'.data) (hd' : '\n' ∉ d'.data) (hs' : '\n' ∉ s'.data) (hr' : '\n' ∉ r'.data) :
    utf8Bytes (canonicalMessage v d s r) =
      utf8Bytes "version=" ++ utf8Bytes v ++ [10] ++ utf8Bytes "download_url=" ++ utf8Bytes d ++
        [10] ++ utf8Bytes "sha256=" ++ utf8Bytes s ++ [10] ++ utf8Bytes "released_at=" ++
        utf8Bytes r ++ [10]
    ∧ (v = v' → d = d' → s = s' → r = r' →
        canonicalMessage v d s r = canonicalMessage v' d' s' r')
    ∧ (v ≠ v' → utf8Bytes (canonicalMessage v d s r) ≠ utf8Bytes (canonicalMessage v' d s r))
    ∧ (d ≠ d' → utf8Bytes (canonicalMessage v d s r) ≠ utf8Bytes (canonicalMessage v d' s r))
    ∧ (s ≠ s' → utf8Bytes (canonicalMessage v d s r) ≠ utf8Bytes (canonicalMessage v d s' r))
    ∧ (r ≠ r' → utf8Bytes (canonicalMessage v d s r) ≠ utf8Bytes (canonicalMessage v d s r'))
    ∧ (utf8Bytes (canonicalMessage v d s r) = utf8Bytes (canonicalMessage v' d' s' r') →
        v = v' ∧ d = d' ∧ s = s' ∧ r = r') := by
  refine ⟨?_, ?_, canonical_ne_of_version_ne, canonical_ne_of_download_ne,
    canonical_ne_of_sha_ne, canonical_ne_of_released_ne, ?_⟩
  · simp only [canonicalMessage, utf8Bytes_append,
      show utf8Bytes "\ndownload_url=" = [10] ++ utf8Bytes "download_url=" from by decide,
      show utf8Bytes "\nsha256=" = [10] ++ utf8Bytes "sha256=" from by decide,
      show utf8Bytes "\nreleased_at=" = [10] ++ utf8Bytes "released_at=" from by decide,
      show utf8Bytes "\n" = [10] from by decide, List.append_assoc]
  · intro e1 e2 e3 e4
    rw [e1, e2, e3, e4]
  · intro he
    exact canonicalMessage_inj hv hd hs hr hv' hd' hs' hr' (utf8Bytes_inj he)

/-- Witness for C2 at concrete field values. -/
theorem claim2_witness :
    (utf8Bytes (canonicalMessage "3.1.4" "https://x/a.zip" "00ff" "2026-01-02T03:04:05Z") =
      utf8Bytes "version=" ++ utf8Bytes "3.1.4" ++ [10] ++ utf8Bytes "download_url=" ++
        utf8Bytes "https://x/a.zip" ++ [10] ++ utf8Bytes "sha256=" ++ utf8Bytes "00ff" ++ [10] ++
        utf8Bytes "released_at=" ++ utf8Bytes "2026-01-02T03:04:05Z" ++ [10]
    ∧ ("3.1.4" = "3.1.5" → "https://x/a.zip" = "https://x/b.zip" → "00ff" = "00fe" →
        "2026-01-02T03:04:05Z" = "2026-01-02T03:04:06Z" →
        canonicalMessage "3.1.4" "https://x/a.zip" "00ff" "2026-01-02T03:04:05Z" =
          canonicalMessage "3.1.5" "https://x/b.zip" "00fe" "2026-01-02T03:04:06Z")
    ∧ ("3.1.4" ≠ "3.1.5" →
        utf8Bytes (canonicalMessage "3.1.4" "https://x/a.zip" "00ff" "2026-01-02T03:04:05Z") ≠
          utf8Bytes (canonicalMessage "3.1.5" "https://x/a.zip" "00ff" "2026-01-02T03:04:05Z"))
    ∧ ("https://x/a.zip" ≠ "https://x/b.zip" →
        utf8Bytes (canonicalMessage "3.1.4" "https://x/a.zip" "00ff" "2026-01-02T03:04:05Z") ≠
          utf8Bytes (canonicalMessage "3.1.4" "https://x/b.zip" "00ff" "2026-01-02T03:04:05Z"))
    ∧ ("00ff" ≠ "00fe" →
        utf8Bytes (canonicalMessage "3.1.4" "https://x/a.zip" "00ff" "2026-01-02T03:04:05Z") ≠
          utf8Bytes (canonicalMessage "3.1.4" "https://x/a.zip" "00fe" "2026-01-02T03:04:05Z"))
    ∧ ("2026-01-02T03:04:05Z" ≠ "2026-01-02T03:04:06Z" →
        utf8Bytes (canonicalMessage "3.1.4" "https://x/a.zip" "00ff" "2026-01-02T03:04:05Z") ≠
          utf8Bytes (canonicalMessage "3.1.4" "https://x/a.zip" "00ff" "2026-01-02T03:04:06Z"))
    ∧ (utf8Bytes (canonicalMessage "3.1.4" "https://x/a.zip" "00ff" "2026-01-02T03:04:05Z") =
        utf8Bytes (canonicalMessage "3.1.5" "https://x/b.zip" "00fe" "2026-01-02T03:04:06Z") →
        "3.1.4" = "3.1.5" ∧ "https://x/a.zip" = "https://x/b.zip" ∧ "00ff" = "00fe" ∧
          "2026-01-02T03:04:05Z" = "2026-01-02T03:04:06Z")) :=
  claim2_canonical_message "3.1.4" "https://x/a.zip" "00ff" "2026-01-02T03:04:05Z"
    "3.1.5" "https://x/b.zip" "00fe" "2026-01-02T03:04:06Z"
    (by decide) (by decide) (by decide) (by decide)
    (by decide) (by decide) (by decide) (by decide)

/-! ## Claim C1 -/

/-- Claim C1: for every generated Ed25519 keypair and every canonical message
byte string, signing the message with the private key and verifying with the
corresponding public key and the message bytes succeeds; and for every
single-bit change to either the message or the signature, verification
fails.  (Ed25519 itself lives in `pynacl`; the scheme is modelled
symbolically, per the spec.) -/
theorem claim1_sign_verify_roundtrip (seed : List Nat) (v d s r : String) :
    verify (publicKeyOf seed) (utf8Bytes (canonicalMessage v d s r))
        (signBytes ⟨seed⟩ (utf8Bytes (canonicalMessage v d s r))) = true
    ∧ (∀ i, i < 8 * (utf8Bytes (canonicalMessage v d s r)).length →
        verify (publicKeyOf seed) (flipBit i (utf8Bytes (canonicalMessage v d s r)))
          (signBytes ⟨seed⟩ (utf8Bytes (canonicalMessage v d s r))) = false)
    ∧ (∀ i, i < 8 * (signBytes ⟨seed⟩ (utf8Bytes (canonicalMessage v d s r))).length →
        verify (publicKeyOf seed) (utf8Bytes (canonicalMessage v d s r))
          (flipBit i (signBytes ⟨seed⟩ (utf8Bytes (canonicalMessage v d s r)))) = false) := by
  refine ⟨?_, ?_, ?_⟩
  · simp [verify, signBytes]
  · intro i hi
    have hne : flipBit i (utf8Bytes (canonicalMessage v d s r)) ≠
        utf8Bytes (canonicalMessage v d s r) := flipBit_ne (div8_lt hi)
    simp only [verify, signBytes]
    rw [beq_eq_false_iff_ne]
    intro hcontra
    exact hne (sigBytesOf_msg_inj hcontra).symm
  · intro i hi
    have hne := @flipBit_ne i (signBytes ⟨seed⟩ (utf8Bytes (canonicalMessage v d s r)))
      (div8_lt hi)
    simp only [verify, signBytes] at hne ⊢
    rw [beq_eq_false_iff_ne]
    exact hne

/-- Witness for C1 at a concrete keypair, canonical message and bit index. -/
theorem claim1_witness :
    verify (publicKeyOf (List.replicate 32 0)) (utf8Bytes (canonicalMessage "3.1.4" "u" "s" "t"))
        (signBytes ⟨List.replicate 32 0⟩ (utf8Bytes (canonicalMessage "3.1.4" "u" "s" "t"))) = true
    ∧ verify (publicKeyOf (List.replicate 32 0))
        (flipBit 0 (utf8Bytes (canonicalMessage "3.1.4" "u" "s" "t")))
        (signBytes ⟨List.replicate 32 0⟩ (utf8Bytes (canonicalMessage "3.1.4" "u" "s" "t"))) = false
    ∧ verify (publicKeyOf (List.replicate 32 0)) (utf8Bytes (canonicalMessage "3.1.4" "u" "s" "t"))
        (flipBit 0 (signBytes ⟨List.replicate 32 0⟩
          (utf8Bytes (canonicalMessage "3.1.4" "u" "s" "t")))) = false :=
  ⟨(claim1_sign_verify_roundtrip (List.replicate 32 0) "3.1.4" "u" "s" "t").1,
   (claim1_sign_verify_roundtrip (List.replicate 32 0) "3.1.4" "u" "s" "t").2.1 0 (by decide),
   (claim1_sign_verify_roundtrip (List.replicate 32 0) "3.1.4" "u" "s" "t").2.2 0 (by decide)⟩

/-! ## Claim C7 -/

/-- Claim C7: the computed digest is the lowercase hex SHA-256 of the file's
content (64 hex characters), equal to the reference digest — the empty input
yields `e3b0...b855` — and is independent of the streaming chunk size. -/
theorem claim7_checksum_correct (content : List Nat) (n : Nat) (hn : 0 < n)
    (env : Env) (path : String)
    (hfs : env.fs path = some (.regular content))
    (hrf : env.readFaults path = false) :
    compute_sha256 env path = .ok (sha256Hex content)
    ∧ sha256Chunked n content = sha256Hex content
    ∧ sha256Hex [] = "e3b0c44298fc1c149afbf4c8996fb92427ae41e4649b934ca495991b7852b855"
    ∧ (sha256Hex content).data.length = 64
    ∧ ∀ c ∈ (sha256Hex content).data, c ∈ hexLowerChars := by
  refine ⟨?_, sha256Chunked_eq hn content, by decide, sha256Hex_length content,
    sha256Hex_lower_hex content⟩
  rw [compute_sha256, hfs]
  simp only [hrf, if_false, Bool.false_eq_true]
  rw [sha256Chunked_eq (by omega : (0 : Nat) < 8192)]

/-- Witness for C7 at concrete content and chunk size, in the environment
holding the concrete archive. -/
theorem claim7_witness :
    compute_sha256 envFresh "loiq-wp-agent.zip" = .ok (sha256Hex [1, 2, 3])
    ∧ sha256Chunked 2 [1, 2, 3] = sha256Hex [1, 2, 3]
    ∧ sha256Hex [] = "e3b0c44298fc1c149afbf4c8996fb92427ae41e4649b934ca495991b7852b855"
    ∧ (sha256Hex [1, 2, 3]).data.length = 64
    ∧ ∀ c ∈ (sha256Hex [1, 2, 3]).data, c ∈ hexLowerChars :=
  claim7_checksum_correct [1, 2, 3] 2 (by decide) envFresh "loiq-wp-agent.zip" rfl rfl

/-! ## Claim C3 -/

/-- Claim C3: on every successful signing run, the primary output channel
receives exactly one JSON object whose keys are the twelve descriptor keys in
their fixed order, rendered by the indenting serializer; the human-readable
confirmation summary (version, digest, key id, public key, timestamp) goes
to the diagnostic channel only and is never mixed into the JSON. -/
theorem claim3_manifest_shape (version zipPath : String) (env : Env) (content : List Nat)
    (k : SigningKey)
    (hfs : env.fs zipPath = some (.regular content))
    (hrf : env.readFaults zipPath = false)
    (hk : (load_signing_key env).1 = .ok k) :
    ∃ pairs : List (String × String),
      (sign_release version zipPath env).stdout = [jsonDumps pairs]
      ∧ pairs.map Prod.fst = descriptorKeys
      ∧ (sign_release version zipPath env).exitCode = 0
      ∧ ("Version: " ++ version) ∈ (sign_release version zipPath env).stderr
      ∧ ("SHA-256: " ++ sha256Chunked 8192 content) ∈ (sign_release version zipPath env).stderr
      ∧ ("Key ID: " ++ KEY_ID) ∈ (sign_release version zipPath env).stderr
      ∧ ("Public Key: " ++ b64encode (publicKeyOf k.seed)) ∈
          (sign_release version zipPath env).stderr
      ∧ ("Released: " ++ env.now) ∈ (sign_release version zipPath env).stderr := by
  refine ⟨[("name", "LOIQ WordPress Agent"),
    ("version", version),
    ("download_url", DOWNLOAD_BASE_URL ++ "/" ++ pathName zipPath),
    ("homepage", "https://loiq.nl"),
    ("sha256", sha256Chunked 8192 content),
    ("released_at", env.now),
    ("key_id", KEY_ID),
    ("signature", b64encode (signBytes k (utf8Bytes (canonicalMessage version
      (DOWNLOAD_BASE_URL ++ "/" ++ pathName zipPath) (sha256Chunked 8192 content) env.now)))),
    ("changelog", pyStrip (changelogFor version)),
    ("requires", "5.8"),
    ("requires_php", "7.4"),
    ("tested", "6.7")], ?_, by simp [descriptorKeys], ?_, ?_, ?_, ?_, ?_, ?_⟩ <;>
    simp only [sign_release, hfs, Option.isNone_some, Bool.false_eq_true, if_false, hk,
      compute_sha256, hrf]
  all_goals simp

/-- Witness for C3 in the concrete fresh-key environment. -/
theorem claim3_witness :
    ∃ pairs : List (String × String),
      (sign_release "3.1.4" "loiq-wp-agent.zip" envFresh).stdout = [jsonDumps pairs]
      ∧ pairs.map Prod.fst = descriptorKeys
      ∧ (sign_release "3.1.4" "loiq-wp-agent.zip" envFresh).exitCode = 0
      ∧ ("Version: " ++ "3.1.4") ∈ (sign_release "3.1.4" "loiq-wp-agent.zip" envFresh).stderr
      ∧ ("SHA-256: " ++ sha256Chunked 8192 [1, 2, 3]) ∈
          (sign_release "3.1.4" "loiq-wp-agent.zip" envFresh).stderr
      ∧ ("Key ID: " ++ KEY_ID) ∈ (sign_release "3.1.4" "loiq-wp-agent.zip" envFresh).stderr
      ∧ ("Public Key: " ++ b64encode (publicKeyOf (SigningKey.mk (List.replicate 32 7)).seed)) ∈
          (sign_release "3.1.4" "loiq-wp-agent.zip" envFresh).stderr
      ∧ ("Released: " ++ envFresh.now) ∈
          (sign_release "3.1.4" "loiq-wp-agent.zip" envFresh).stderr :=
  claim3_manifest_shape "3.1.4" "loiq-wp-agent.zip" envFresh [1, 2, 3]
    ⟨List.replicate 32 7⟩ rfl rfl rfl

/-! ## Claim C4 -/

/-- Claim C4: signing with a non-existent archive path fails with the
archive-not-found error before the key is touched: the run exits non-zero
with only that diagnostic, the key file is never read, and no key is
generated. -/
theorem claim4_missing_archive (version zipPath : String) (env : Env)
    (h : env.fs zipPath = none) :
    (sign_release version zipPath env).exitCode = 1
    ∧ (sign_release version zipPath env).stdout = []
    ∧ (sign_release version zipPath env).stderr = ["Error: ZIP file not found: " ++ zipPath]
    ∧ Event.readKeyFile ∉ (sign_release version zipPath env).events
    ∧ Event.generateKey ∉ (sign_release version zipPath env).events := by
  have hrun : sign_release version zipPath env =
      { exitCode := 1, stdout := [],
        stderr := ["Error: ZIP file not found: " ++ zipPath], events := [] } := by
    simp [sign_release, h]
  rw [hrun]
  exact ⟨rfl, rfl, rfl, by simp, by simp⟩

/-- Witness for C4 at a concrete missing path. -/
theorem claim4_witness :
    (sign_release "3.1.4" "missing.zip" envFresh).exitCode = 1
    ∧ (sign_release "3.1.4" "missing.zip" envFresh).stdout = []
    ∧ (sign_release "3.1.4" "missing.zip" envFresh).stderr =
        ["Error: ZIP file not found: " ++ "missing.zip"]
    ∧ Event.readKeyFile ∉ (sign_release "3.1.4" "missing.zip" envFresh).events
    ∧ Event.generateKey ∉ (sign_release "3.1.4" "missing.zip" envFresh).events :=
  claim4_missing_archive "3.1.4" "missing.zip" envFresh rfl

/-! ## Claim C5 -/

/-- On any run whose exit code is non-zero, nothing was printed on stdout. -/
theorem sign_release_fail_stdout_empty (version zipPath : String) (env : Env)
    (h : (sign_release version zipPath env).exitCode ≠ 0) :
    (sign_release version zipPath env).stdout = [] := by
  rw [sign_release] at h ⊢
  by_cases hfs : (env.fs zipPath).isNone
  · simp [hfs]
  · rw [if_neg (by simp [hfs])] at h ⊢
    rcases hload : (load_signing_key env).1 with e | k
    · simp [hload]
    · rcases hcs : compute_sha256 env zipPath with e | digest
      · simp [hload, hcs]
      · exact absurd (by simp [hload, hcs]) h

/-- The stdout of any run is either empty or exactly one JSON descriptor
with the twelve keys. -/
theorem sign_release_stdout_shape (version zipPath : String) (env : Env) :
    (sign_release version zipPath env).stdout = [] ∨
    ∃ pairs : List (String × String),
      (sign_release version zipPath env).stdout = [jsonDumps pairs]
      ∧ pairs.map Prod.fst = descriptorKeys := by
  by_cases hfs : env.fs zipPath = none
  · left
    simp [sign_release, hfs]
  · have hfs' : (env.fs zipPath).isNone = false := by
      rcases hval : env.fs zipPath with _ | node
      · exact absurd hval hfs
      · rfl
    rcases hload : (load_signing_key env).1 with e | k
    · left
      simp only [sign_release, hload]
      split <;> rfl
    · rcases hcs : compute_sha256 env zipPath with e | digest
      · left
        simp only [sign_release, hload, hcs]
        split <;> rfl
      · right
        refine ⟨[("name", "LOIQ WordPress Agent"),
          ("version", version),
          ("download_url", DOWNLOAD_BASE_URL ++ "/" ++ pathName zipPath),
          ("homepage", "https://loiq.nl"),
          ("sha256", digest),
          ("released_at", env.now),
          ("key_id", KEY_ID),
          ("signature", b64encode (signBytes k (utf8Bytes (canonicalMessage version
            (DOWNLOAD_BASE_URL ++ "/" ++ pathName zipPath) digest env.now)))),
          ("changelog", pyStrip (changelogFor version)),
          ("requires", "5.8"),
          ("requires_php", "7.4"),
          ("tested", "6.7")], ?_, by simp [descriptorKeys]⟩
        simp only [sign_release, hfs', Bool.false_eq_true, if_false, hload, hcs]

/-- Claim C5: a failing run (wrong argument count, missing archive, malformed
key, any signing-stage failure) writes nothing to the primary output channel:
stdout carries either one complete JSON descriptor or nothing; in particular
a missing archive yields no JSON and a non-zero exit status. -/
theorem claim5_no_partial_json (argv : List String) (env : Env) (version zipPath : String) :
    ((mainRun argv env).exitCode ≠ 0 → (mainRun argv env).stdout = [])
    ∧ ((mainRun argv env).stdout = [] ∨
        ∃ pairs : List (String × String), (mainRun argv env).stdout = [jsonDumps pairs]
          ∧ pairs.map Prod.fst = descriptorKeys)
    ∧ (env.fs zipPath = none →
        (sign_release version zipPath env).stdout = []
        ∧ (sign_release version zipPath env).exitCode ≠ 0) := by
  refine ⟨?_, ?_, ?_⟩
  · intro h
    rw [mainRun] at h ⊢
    by_cases hargs : argv.length < 3
    · simp [hargs]
    · rw [if_neg hargs] at h ⊢
      exact sign_release_fail_stdout_empty _ _ _ h
  · rw [mainRun]
    by_cases hargs : argv.length < 3
    · left
      simp [hargs]
    · rw [if_neg hargs]
      exact sign_release_stdout_shape _ _ _
  · intro h
    refine ⟨?_, ?_⟩ <;> simp [sign_release, h]

/-- Witness for C5: a usage error and a missing archive, concretely. -/
theorem claim5_witness :
    (mainRun ["sign-release.py"] envFresh).stdout = []
    ∧ ((mainRun ["sign-release.py"] envFresh).stdout = [] ∨
        ∃ pairs : List (String × String),
          (mainRun ["sign-release.py"] envFresh).stdout = [jsonDumps pairs]
          ∧ pairs.map Prod.fst = descriptorKeys)
    ∧ ((sign_release "3.1.4" "missing.zip" envFresh).stdout = []
        ∧ (sign_release "3.1.4" "missing.zip" envFresh).exitCode ≠ 0) :=
  ⟨(claim5_no_partial_json ["sign-release.py"] envFresh "3.1.4" "missing.zip").1 (by decide),
   (claim5_no_partial_json ["sign-release.py"] envFresh "3.1.4" "missing.zip").2.1,
   (claim5_no_partial_json ["sign-release.py"] envFresh "3.1.4" "missing.zip").2.2 rfl⟩

/-! ## Claim C6 (corrected) -/

/-- Counterexample to C6 as stated: a path naming a directory does not fail
with the file-not-found condition; opening it raises the distinct
is-a-directory condition. -/
theorem claim6_counterexample :
    compute_sha256 envDir "build" = .error .isADirectoryError
    ∧ PyErr.isADirectoryError ≠ PyErr.fileNotFoundError :=
  ⟨rfl, by decide⟩

/-- Claim C6, amended: a missing path fails with the file-not-found
condition and a directory with the is-a-directory condition, both open-time
conditions distinct from the I/O error raised mid-read. -/
theorem claim6_amended_open_errors (env : Env) (path : String) :
    (env.fs path = none → compute_sha256 env path = .error .fileNotFoundError)
    ∧ (env.fs path = some .directory → compute_sha256 env path = .error .isADirectoryError)
    ∧ ((env.fs path = none ∨ env.fs path = some .directory) →
        compute_sha256 env path ≠ .error .osError)
    ∧ PyErr.fileNotFoundError ≠ PyErr.osError
    ∧ PyErr.isADirectoryError ≠ PyErr.osError := by
  refine ⟨?_, ?_, ?_, by decide, by decide⟩
  · intro h
    simp [compute_sha256, h]
  · intro h
    simp [compute_sha256, h]
  · rintro (h | h) <;> simp [compute_sha256, h]

/-- Witness for the amended C6 at a concrete missing path and directory. -/
theorem claim6_witness :
    compute_sha256 envDir "missing" = .error .fileNotFoundError
    ∧ compute_sha256 envDir "build" = .error .isADirectoryError
    ∧ compute_sha256 envDir "build" ≠ .error .osError
    ∧ PyErr.fileNotFoundError ≠ PyErr.osError
    ∧ PyErr.isADirectoryError ≠ PyErr.osError :=
  ⟨(claim6_amended_open_errors envDir "missing").1 rfl,
   (claim6_amended_open_errors envDir "build").2.1 rfl,
   (claim6_amended_open_errors envDir "build").2.2.1 (Or.inr rfl),
   (claim6_amended_open_errors envDir "build").2.2.2.1,
   (claim6_amended_open_errors envDir "build").2.2.2.2⟩

/-! ## Claim C8 -/

/-- Claim C8: a key file whose content does not decode to a valid private
key makes the run fail fast: loading yields the raised exception and never a
key, the run exits non-zero with the exception reported on stderr, and
nothing is written to stdout. -/
theorem claim8_malformed_key_fails (version zipPath : String) (env : Env) (content : String)
    (node : FileNode)
    (hkf : env.keyFile = some content)
    (hbad : decodeKey (pyStrip content) = none)
    (hfs : env.fs zipPath = some node) :
    (load_signing_key env).1 = .error .valueError
    ∧ (sign_release version zipPath env).exitCode = 1
    ∧ (sign_release version zipPath env).stdout = []
    ∧ (sign_release version zipPath env).stderr = [pyTraceback .valueError] := by
  have hload : load_signing_key env = (.error .valueError, [], [.readKeyFile]) := by
    simp [load_signing_key, hkf, hbad]
  have hfs' : (env.fs zipPath).isNone = false := by rw [hfs]; rfl
  refine ⟨by rw [hload], ?_, ?_, ?_⟩ <;>
    simp [sign_release, hfs', hload]

/-- Witness for C8 at a concrete 4-character (hence 3-byte) key file. -/
theorem claim8_witness :
    (load_signing_key envBadKey).1 = .error .valueError
    ∧ (sign_release "3.1.4" "loiq-wp-agent.zip" envBadKey).exitCode = 1
    ∧ (sign_release "3.1.4" "loiq-wp-agent.zip" envBadKey).stdout = []
    ∧ (sign_release "3.1.4" "loiq-wp-agent.zip" envBadKey).stderr = [pyTraceback .valueError] :=
  claim8_malformed_key_fails "3.1.4" "loiq-wp-agent.zip" envBadKey "AAAA"
    (.regular [1, 2, 3]) rfl rfl rfl

/-! ## Claim C9 -/

theorem load_signing_key_events (env : Env) :
    (load_signing_key env).2.2 = [Event.generateKey] ∨
    (load_signing_key env).2.2 = [Event.readKeyFile] := by
  rcases hkf : env.keyFile with _ | content
  · left
    simp [load_signing_key, hkf]
  · rcases hdec : decodeKey (pyStrip content) with _ | k <;>
    · right
      simp [load_signing_key, hkf, hdec]

theorem sign_release_events_shape (version zipPath : String) (env : Env) :
    (sign_release version zipPath env).events = [] ∨
    (sign_release version zipPath env).events = (load_signing_key env).2.2 ∨
    (sign_release version zipPath env).events =
      (load_signing_key env).2.2 ++ [Event.readArchive] := by
  by_cases hfs : (env.fs zipPath).isNone
  · left
    simp [sign_release, hfs]
  · rw [Bool.not_eq_true] at hfs
    rcases hload : (load_signing_key env).1 with e | k
    · right; left
      simp only [sign_release, hfs, Bool.false_eq_true, if_false, hload]
    · rcases hcs : compute_sha256 env zipPath with e | digest <;>
      · right; right
        simp only [sign_release, hfs, Bool.false_eq_true, if_false, hload, hcs]

theorem sign_release_events_sub (version zipPath : String) (env : Env) :
    ∀ e ∈ (sign_release version zipPath env).events,
      e = Event.readKeyFile ∨ e = Event.generateKey ∨ e = Event.readArchive := by
  intro e he
  rcases sign_release_events_shape version zipPath env with h | h | h <;> rw [h] at he
  · simp at he
  · rcases load_signing_key_events env with h2 | h2 <;> rw [h2] at he <;> simp at he <;>
      tauto
  · rcases load_signing_key_events env with h2 | h2 <;> rw [h2] at he <;> simp at he <;>
      tauto

theorem keyFileAfter_of_no_write (kp : String) :
    ∀ (events : List Event) (init : Option String),
      (∀ e ∈ events, e = Event.readKeyFile ∨ e = Event.generateKey ∨ e = Event.readArchive) →
      keyFileAfter events kp init = init := by
  intro events
  induction events with
  | nil => intro init _; rfl
  | cons e t ih =>
      intro init h
      have hstep : keyFileAfter (e :: t) kp init = keyFileAfter t kp init := by
        rcases h e (List.mem_cons_self _ _) with h1 | h1 | h1 <;> subst h1 <;> rfl
      rw [hstep]
      exact ih init (fun x hx => h x (List.mem_cons_of_mem _ hx))

/-- Claim C9: a signing run mutates no persisted state: the event trace
contains no write, the key file is unchanged after the run (in particular a
generated key is never persisted: the key file still does not exist), and
the only file-system effects are reading the key file, generating a key in
memory, and reading the archive. -/
theorem claim9_no_state_mutation (version zipPath : String) (env : Env) :
    (∀ p c, Event.writeFile p c ∉ (sign_release version zipPath env).events)
    ∧ keyFileAfter (sign_release version zipPath env).events env.keyPath env.keyFile = env.keyFile
    ∧ (env.keyFile = none →
        keyFileAfter (sign_release version zipPath env).events env.keyPath none = none)
    ∧ ∀ e ∈ (sign_release version zipPath env).events,
        e = Event.readKeyFile ∨ e = Event.generateKey ∨ e = Event.readArchive := by
  have hsub := sign_release_events_sub version zipPath env
  refine ⟨?_, keyFileAfter_of_no_write _ _ _ hsub, ?_, hsub⟩
  · intro p c hmem
    rcases hsub _ hmem with h | h | h <;> simp at h
  · intro _
    exact keyFileAfter_of_no_write _ _ _ hsub

/-- Witness for C9 in the concrete fresh-key environment (key absent, so the
run generates a key and still persists nothing). -/
theorem claim9_witness :
    (∀ p c, Event.writeFile p c ∉ (sign_release "3.1.4" "loiq-wp-agent.zip" envFresh).events)
    ∧ keyFileAfter (sign_release "3.1.4" "loiq-wp-agent.zip" envFresh).events envFresh.keyPath
        envFresh.keyFile = envFresh.keyFile
    ∧ (envFresh.keyFile = none →
        keyFileAfter (sign_release "3.1.4" "loiq-wp-agent.zip" envFresh).events
          envFresh.keyPath none = none)
    ∧ ∀ e ∈ (sign_release "3.1.4" "loiq-wp-agent.zip" envFresh).events,
        e = Event.readKeyFile ∨ e = Event.generateKey ∨ e = Event.readArchive :=
  claim9_no_state_mutation "3.1.4" "loiq-wp-agent.zip" envFresh

/-! ## Claim C10 -/

theorem b64decodeGroups_chars :
    ∀ (l : List Char) (bs : List Nat), b64decodeGroups l = some bs →
      ∀ c ∈ l, (b64CharVal c).isSome = true ∨ c = '='
  | [], _, _ => by
      intro c hc
      simp at hc
  | [c1], bs, h => by
      simp [b64decodeGroups] at h
  | [c1, c2], bs, h => by
      simp [b64decodeGroups] at h
  | [c1, c2, c3], bs, h => by
      simp [b64decodeGroups] at h
  | c1 :: c2 :: c3 :: c4 :: rest, bs, h => by
      rw [b64decodeGroups] at h
      rcases h1 : b64CharVal c1 with _ | v1
      · simp [h1] at h
      rcases h2 : b64CharVal c2 with _ | v2
      · simp [h1, h2] at h
      simp only [h1, h2] at h
      by_cases h3 : c3 = '='
      · rw [if_pos h3] at h
        by_cases h4 : c4 = '=' ∧ rest = []
        · intro c hc
          simp only [List.mem_cons] at hc
          rcases hc with rfl | rfl | rfl | rfl | hc
          · exact Or.inl (by simp [h1])
          · exact Or.inl (by simp [h2])
          · exact Or.inr h3
          · exact Or.inr h4.1
          · rw [h4.2] at hc
            simp at hc
        · rw [if_neg h4] at h
          simp at h
      · rw [if_neg h3] at h
        rcases h3v : b64CharVal c3 with _ | v3
        · simp [h3v] at h
        simp only [h3v] at h
        by_cases h4 : c4 = '='
        · rw [if_pos h4] at h
          by_cases h5 : rest = []
          · intro c hc
            simp only [List.mem_cons] at hc
            rcases hc with rfl | rfl | rfl | rfl | hc
            · exact Or.inl (by simp [h1])
            · exact Or.inl (by simp [h2])
            · exact Or.inl (by simp [h3v])
            · exact Or.inr h4
            · rw [h5] at hc
              simp at hc
          · rw [if_neg h5] at h
            simp at h
        · rw [if_neg h4] at h
          rcases h4v : b64CharVal c4 with _ | v4
          · simp [h4v] at h
          simp only [h4v] at h
          rcases hrest : b64decodeGroups rest with _ | bs'
          · rw [hrest] at h
            simp at h
          intro c hc
          simp only [List.mem_cons] at hc
          rcases hc with rfl | rfl | rfl | rfl | hc
          · exact Or.inl (by simp [h1])
          · exact Or.inl (by simp [h2])
          · exact Or.inl (by simp [h3v])
          · exact Or.inl (by simp [h4v])
          · exact b64decodeGroups_chars rest bs' hrest c hc

theorem b64_char_not_space {c : Char} (h : (b64CharVal c).isSome = true ∨ c = '=') :
    isPySpace c = false := by
  have hb : 43 ≤ c.toNat := by
    rcases h with h | rfl
    · rw [b64CharVal] at h
      split_ifs at h with h1 h2 h3 h4 h5 <;> first | omega | simp at h
    · decide
  simp only [isPySpace, Bool.or_eq_false_iff]
  refine ⟨⟨⟨⟨⟨?_, ?_⟩, ?_⟩, ?_⟩, ?_⟩, ?_⟩ <;>
    exact beq_eq_false_iff_ne.mpr (fun hh => absurd (hh ▸ hb) (by decide))

theorem pyStripList_sandwich {w1 w2 e : List Char}
    (hw1 : ∀ c ∈ w1, isPySpace c = true) (hw2 : ∀ c ∈ w2, isPySpace c = true)
    (he : ∀ c ∈ e, isPySpace c = false) (hne : e ≠ []) :
    pyStripList (w1 ++ e ++ w2) = e := by
  have he2 : e.dropWhile isPySpace = e := by
    cases e with
    | nil => rfl
    | cons c e' =>
        rw [List.dropWhile_cons, if_neg]
        simp [he c (List.mem_cons_self _ _)]
  have hd1 : (w1 ++ e ++ w2).dropWhile isPySpace = e ++ w2 := by
    rw [List.append_assoc, List.dropWhile_append,
      List.dropWhile_eq_nil_iff.mpr hw1]
    simp only [List.isEmpty_nil, if_true]
    rw [List.dropWhile_append, he2]
    cases e with
    | nil => exact absurd rfl hne
    | cons c e' => simp
  rw [pyStripList, hd1, List.reverse_append, List.dropWhile_append,
    List.dropWhile_eq_nil_iff.mpr (fun x hx => hw2 x (by simpa using hx))]
  simp only [List.isEmpty_nil, if_true]
  rcases hrev : e.reverse with _ | ⟨c, t⟩
  · exact absurd (by simpa using congrArg List.reverse hrev) hne
  · rw [List.dropWhile_cons, if_neg]
    · rw [← hrev, List.reverse_reverse]
    · have hcm : c ∈ e := by
        have : c ∈ e.reverse := by rw [hrev]; exact List.mem_cons_self _ _
        simpa using this
      simp [he c hcm]

/-- Claim C10: key loading strips all leading and trailing whitespace, so a
key file holding a valid text-encoded private key surrounded by any
whitespace loads to the same signing key as the bare encoding. -/
theorem claim10_strip_whitespace (w1 w2 e : String) (k : SigningKey) (env envB : Env)
    (hw1 : ∀ c ∈ w1.data, isPySpace c = true)
    (hw2 : ∀ c ∈ w2.data, isPySpace c = true)
    (hk : decodeKey e = some k)
    (henv : env.keyFile = some (w1 ++ e ++ w2))
    (henvB : envB.keyFile = some e) :
    (load_signing_key env).1 = .ok k ∧ (load_signing_key envB).1 = .ok k := by
  have hch : ∀ c ∈ e.data, isPySpace c = false := by
    intro c hc
    apply b64_char_not_space
    rw [decodeKey] at hk
    rcases hb : b64decode e with _ | bs
    · rw [hb] at hk
      simp at hk
    · exact b64decodeGroups_chars e.data bs hb c hc
  have hne : e.data ≠ [] := by
    intro hnil
    rw [decodeKey, b64decode, hnil] at hk
    simp [b64decodeGroups] at hk
  have hstrip : pyStrip (w1 ++ e ++ w2) = e := by
    apply String.ext
    show pyStripList (w1 ++ e ++ w2).data = e.data
    rw [String.data_append, String.data_append]
    exact pyStripList_sandwich hw1 hw2 hch hne
  have hstrip2 : pyStrip e = e := by
    apply String.ext
    show pyStripList e.data = e.data
    have := @pyStripList_sandwich [] [] e.data
      (by intro c hc; simp at hc) (by intro c hc; simp at hc) hch hne
    simpa using this
  constructor
  · simp [load_signing_key, henv, hstrip, hk]
  · simp [load_signing_key, henvB, hstrip2, hk]

/-- Witness for C10: the all-zero seed's base64 encoding surrounded by
newlines and spaces loads to the same key as the bare encoding. -/
theorem claim10_witness :
    (load_signing_key envPaddedKey).1 = .ok ⟨List.replicate 32 0⟩
    ∧ (load_signing_key envBareKey).1 = .ok ⟨List.replicate 32 0⟩ :=
  claim10_strip_whitespace "\n " " \n\n" zeroSeedB64 ⟨List.replicate 32 0⟩
    envPaddedKey envBareKey (by decide) (by decide) (by decide) rfl rfl

end SignRelease

